import Mathlib

/-!
Verification of the `mdoc` package: a HTTP handler that renders a directory
of Markdown documents.  The Go source (`mdoc.go`, `options.go`) is shallowly
embedded below: the filesystem is an explicit map from path names to open
results, HTTP responses are modelled as a trace of primitive writer
operations (set a header, write the header/status line, write body bytes),
and the external collaborators (the Markdown-to-HTML converter and the
template engine backing the default renderers) are explicit function
parameters.
-/

namespace Mdoc

/-- Errors, as the handler distinguishes them: the package sentinel
`ErrNotFound`, the OS conditions recognised by `os.IsNotExist` /
`os.IsPermission`, and everything else. -/
inductive GoErr where
  | errNotFound
  | osNotExist
  | osPermission
  | other (msg : String)
deriving Repr, DecidableEq

/-- Primitive response-writer operations available to a pluggable error
handler (`http.ResponseWriter`): set a header, write the status, write body
bytes. -/
inductive HOp where
  | setHeader (k v : String)
  | writeHeader (code : Nat)
  | write (s : String)
deriving Repr, DecidableEq

/-- The full operation trace recorded for a request: the writer operations
plus markers for entering and returning from the configured error handler. -/
inductive Op where
  | setHeader (k v : String)
  | writeHeader (code : Nat)
  | write (s : String)
  | errCall (e : GoErr)
  | errRet
deriving Repr, DecidableEq

def hopToOp : HOp → Op
  | .setHeader k v => .setHeader k v
  | .writeHeader c => .writeHeader c
  | .write s => .write s

/-- An accumulated HTTP response.  `status` is `none` until the header has
been written; Go's `ResponseWriter` ignores a second `WriteHeader` call, and
a `Write` before any `WriteHeader` implicitly writes status 200. -/
structure Response where
  status : Option Nat
  headers : List (String × String)
  body : String
deriving Repr, DecidableEq

def Response.empty : Response := ⟨none, [], ""⟩

def applyOp (r : Response) : Op → Response
  | .setHeader k v => { r with headers := (k, v) :: r.headers.filter (fun p => p.1 ≠ k) }
  | .writeHeader c => if r.status.isSome then r else { r with status := some c }
  | .write s =>
      let r := if r.status.isSome then r else { r with status := some 200 }
      { r with body := r.body ++ s }
  | .errCall _ => r
  | .errRet => r

def runOps (ops : List Op) : Response := ops.foldl applyOp Response.empty

def runHOps (hops : List HOp) : Response := runOps (hops.map hopToOp)

def Response.getHeader (r : Response) (k : String) : Option String :=
  (r.headers.find? (fun p => p.1 = k)).map (fun p => p.2)

/-- An incoming request: `req.URL.Path` and `req.URL.RawQuery`. -/
structure Request where
  path : String
  rawQuery : String
deriving Repr, DecidableEq

/-- `os.FileInfo` as used by `Readdir`: a name and the directory bit. -/
structure FInfo where
  name : String
  isDir : Bool
deriving Repr, DecidableEq

/-- The result of `Stat` on an open file. -/
structure Stat where
  isDir : Bool
  modTime : Nat
deriving Repr, DecidableEq

/-- An open file handle: what `Stat`, `ioutil.ReadAll` and `Readdir` would
return on it. -/
structure Entry where
  stat : Except GoErr Stat
  readAll : Except GoErr String
  readdir : Except GoErr (List FInfo)

/-- The filesystem, as the handler observes it: `os.Open` on a path name
either fails or yields an open handle. -/
structure FS where
  openFile : String → Except GoErr Entry

/-! ### Models of the Go standard library functions the handler uses -/

/-- `strings.HasPrefix`. -/
def hasPrefix (s p : String) : Bool := p.data.isPrefixOf s.data

/-- `strings.HasSuffix`. -/
def hasSuffix (s p : String) : Bool := p.data.isSuffixOf s.data

/-- Helper for `filepath.Ext`: scan the reversed character list for the
last dot of the last path element. -/
def goExtRev (acc : List Char) : List Char → List Char
  | [] => []
  | c :: rest =>
      if c = '/' then []
      else if c = '.' then c :: acc
      else goExtRev (c :: acc) rest

/-- `filepath.Ext`: the suffix beginning at the final dot in the final
slash-separated element; empty if there is no dot. -/
def goExt (s : String) : String := String.mk (goExtRev [] s.data.reverse)

/-- `path.Base`: the last element of the path after dropping trailing
slashes; "." for the empty string, "/" if the path is all slashes. -/
def goBase (p : String) : String :=
  if p = "" then "."
  else
    let cs := p.data.reverse.dropWhile (fun c => c = '/')
    if cs = [] then "/"
    else String.mk ((cs.takeWhile (fun c => c ≠ '/')).reverse)

/-- Split a string on `'/'` (model of `strings.Split(s, "/")` as used by
lexical path cleaning). -/
def splitSlash : List Char → List String
  | [] => [""]
  | c :: rest =>
      let r := splitSlash rest
      if c = '/' then "" :: r
      else
        match r with
        | [] => [String.mk [c]]
        | s :: tl => String.mk (c :: s.data) :: tl

/-- The ".." step of `path.Clean`: pop a non-".." stack top; at an empty
stack, drop the ".." when the path is rooted and keep it otherwise. -/
def popDotDot (rooted : Bool) (stack : List String) : List String :=
  match stack with
  | [] => if rooted then [] else [".."]
  | t :: tl => if t = ".." then ".." :: t :: tl else tl

/-- The element-stack loop of `path.Clean`: empty and "." elements are
dropped; ".." is handled by `popDotDot`; other elements are pushed.  The
stack is accumulated in reverse. -/
def cleanSegsAux (rooted : Bool) (stack : List String) : List String → List String
  | [] => stack.reverse
  | s :: rest =>
      if s = "" ∨ s = "." then cleanSegsAux rooted stack rest
      else if s = ".." then cleanSegsAux rooted (popDotDot rooted stack) rest
      else cleanSegsAux rooted (s :: stack) rest

/-- `path.Clean`: lexical cleaning — resolve "." and "..", collapse
repeated separators, drop trailing separators. -/
def goClean (p : String) : String :=
  if p = "" then "."
  else
    let rooted := hasPrefix p "/"
    let segs := cleanSegsAux rooted [] (splitSlash p.data)
    let out := String.intercalate "/" segs
    if rooted then "/" ++ out
    else if out = "" then "." else out

/-- `http.StatusText` for the codes this package can produce. -/
def statusText (code : Nat) : String :=
  if code = 200 then "OK"
  else if code = 307 then "Temporary Redirect"
  else if code = 403 then "Forbidden"
  else if code = 404 then "Not Found"
  else if code = 500 then "Internal Server Error"
  else ""

/-- `http.Error`: plain-text content type, anti-sniffing header, the status
code, and the message followed by a newline. -/
def httpError (msg : String) (code : Nat) : List HOp :=
  [ .setHeader "Content-Type" "text/plain; charset=utf-8",
    .setHeader "X-Content-Type-Options" "nosniff",
    .writeHeader code,
    .write (msg ++ "\n") ]

/-! ### The mdoc package (`mdoc.go`, `options.go`) -/

/-- A directory entry for the HTML view (`File`). -/
structure File where
  Name : String
  IsDir : Bool
deriving Repr, DecidableEq

/-- `File.DisplayName`: the name with a slash appended for directories. -/
def File.DisplayName (f : File) : String :=
  if f.IsDir then f.Name ++ "/" else f.Name

/-- `byName.Less`: directories sort before files; within a group, by
lexical name order. -/
def byNameLess (a b : File) : Bool :=
  if a.IsDir && !b.IsDir then true
  else if !a.IsDir && b.IsDir then false
  else decide (a.Name < b.Name)

/-- The non-strict order induced by `byNameLess`, used to run the sort. -/
def byNameLE (a b : File) : Bool := !byNameLess b a

/-- `isMarkdownFile`: the extension is exactly ".md" or ".markdown". -/
def isMarkdownFile (name : String) : Bool :=
  goExt name = ".md" ∨ goExt name = ".markdown"

/-- `getFiles`: read the directory, drop hidden entries and non-Markdown
files, and sort with `byName`. -/
def getFiles (f : Entry) : Except GoErr (List File) :=
  match f.readdir with
  | .error e => .error e
  | .ok fis =>
      let files := (fis.map (fun fi => File.mk fi.name fi.isDir)).filter
        (fun f => !(hasPrefix f.Name "." || (!f.IsDir && !isMarkdownFile f.Name)))
      .ok (files.mergeSort byNameLE)

/-- `Layout` flattened into the two page structures: `IndexPage` carries
the mount root, the logical path, the (unset) theme field, and the listed
files. -/
structure IndexPage where
  root : String
  path : String
  theme : String
  Files : List File
deriving Repr, DecidableEq

/-- `DocumentPage`: the layout fields plus the source file name and the
converted HTML content. -/
structure DocumentPage where
  root : String
  path : String
  theme : String
  Name : String
  Content : String
deriving Repr, DecidableEq

/-- The handler configuration (`handler`).  The pluggable error handler is
modelled by the writer operations it performs for a given error. -/
structure Handler where
  dir : String
  root : String
  themeDir : String
  assetsDir : String
  indexRenderer : IndexPage → Except GoErr String
  documentRenderer : DocumentPage → Except GoErr String
  errorHandler : GoErr → List HOp

/-- `renderIndex`: list the directory and hand the assembled `IndexPage`
to the configured index renderer. -/
def renderIndex (h : Handler) (f : Entry) (path : String) :
    Except GoErr String :=
  match getFiles f with
  | .error e => .error e
  | .ok files => h.indexRenderer ⟨h.root, path, "", files⟩

/-- `renderDocument`: reject non-Markdown names with `ErrNotFound`, read
the content, convert it with the external Markdown capability `gfm`, and
hand the assembled `DocumentPage` to the configured document renderer.
`name` is `f.Name()`, the path the handle was opened with. -/
def renderDocument (gfm : String → String) (h : Handler) (name : String)
    (f : Entry) (path : String) : Except GoErr String :=
  if !isMarkdownFile name then .error .errNotFound
  else
    match f.readAll with
    | .error e => .error e
    | .ok raw => h.documentRenderer ⟨h.root, path, "", name, gfm raw⟩

/-- `redirect`: set Location to `loc` (with the original query string
appended when present) and write a 307. -/
def redirect (req : Request) (loc : String) : List Op :=
  let loc := if req.rawQuery ≠ "" then loc ++ "?" ++ req.rawQuery else loc
  [ .setHeader "Location" loc, .writeHeader 307 ]

/-- The status code chosen by `defaultErrorHandler`'s switch. -/
def defaultErrorCode : GoErr → Nat
  | .errNotFound => 404
  | .osNotExist => 404
  | .osPermission => 403
  | .other _ => 500

/-- `defaultErrorHandler`: map the error to a status code and respond with
`http.Error` using the generic status text. -/
def defaultErrorHandler (e : GoErr) : List HOp :=
  httpError (statusText (defaultErrorCode e)) (defaultErrorCode e)

/-- A functional option (`Option` in the source; that name is taken in
Lean). -/
def HOption : Type := Handler → Handler

/-- `Root`: set the mount root. -/
def Root (root : String) : HOption := fun h => { h with root := root }

/-- `defaultRoot`. -/
def defaultRoot : String := "/"

/-- `Theme`: set the theme directory. -/
def Theme (dir : String) : HOption := fun h => { h with themeDir := dir }

/-- `defaultThemeDir`. -/
def defaultThemeDir : String := "contrib/themes/default"

/-- `IndexRenderer`: set the IndexPage rendering function. -/
def IndexRenderer (fn : IndexPage → Except GoErr String) : HOption :=
  fun h => { h with indexRenderer := fn }

/-- `DocumentRenderer`: set the DocumentPage rendering function. -/
def DocumentRenderer (fn : DocumentPage → Except GoErr String) : HOption :=
  fun h => { h with documentRenderer := fn }

/-- `ErrorHandler`: set the error handling function. -/
def ErrorHandler (fn : GoErr → List HOp) : HOption :=
  fun h => { h with errorHandler := fn }

/-- Go's nil function value, held by the renderer fields between the
struct literal in `New` and their assignment below it. -/
def nilIndexRenderer : IndexPage → Except GoErr String :=
  fun _ => .error (.other "nil renderer")

def nilDocumentRenderer : DocumentPage → Except GoErr String :=
  fun _ => .error (.other "nil renderer")

/-- `New`: normalise an empty directory to ".", build the handler with the
defaults, apply the options, then assign the two renderer fields from the
theme-backed defaults.  The external template engine behind
`defaultIndexRenderer` / `defaultDocumentRenderer` is passed in as
`engineIdx` / `engineDoc` (theme directory to rendering function).  The
`http.ServeMux` wrapping that also routes `/.mdoc/assets/` is outside the
model; the returned value is the handler that serves `/`. -/
def New (engineIdx : String → IndexPage → Except GoErr String)
    (engineDoc : String → DocumentPage → Except GoErr String)
    (dir : String) (opts : List HOption) : Handler :=
  let dir := if dir = "" then "." else dir
  let h : Handler :=
    { dir := dir, root := defaultRoot, themeDir := defaultThemeDir,
      assetsDir := "", indexRenderer := nilIndexRenderer,
      documentRenderer := nilDocumentRenderer,
      errorHandler := defaultErrorHandler }
  let h := opts.foldl (fun h o => o h) h
  let h := { h with indexRenderer := engineIdx h.themeDir }
  { h with documentRenderer := engineDoc h.themeDir }

/-- The URL normalisation at the top of `ServeHTTP`: ensure a leading
slash. -/
def normalizeUrl (p : String) : String :=
  if !hasPrefix p "/" then "/" ++ p else p

/-- The path resolution in `ServeHTTP`: `name := h.dir`, and unless the
normalised URL is the root, append its lexical cleaning. -/
def resolveName (dir url : String) : String :=
  if url ≠ "/" then dir ++ goClean url else dir

/-- A call into the configured error handler, bracketed by trace
markers. -/
def errOps (h : Handler) (e : GoErr) : List Op :=
  Op.errCall e :: (h.errorHandler e).map hopToOp ++ [Op.errRet]

/-- `http.ServeContent` on a zero-or-more-byte buffer, successful plain
path: Last-Modified from the mod time, a 200 header, and the content bytes
(a zero-length buffer issues no write).  Conditional-request and range
handling are outside the model. -/
def serveContentOps (modTime : Nat) (b : String) : List Op :=
  [ Op.setHeader "Last-Modified" (toString modTime), Op.writeHeader 200 ]
    ++ (if b = "" then [] else [Op.write b])

/-- The tail of `ServeHTTP` shared by the index and document branches:
render, call the error handler on failure (without returning), and fall
through to `http.ServeContent` — with a nil byte slice when rendering
failed. -/
def finishRender (h : Handler) (modTime : Nat) :
    Except GoErr String → List Op
  | .error e => errOps h e ++ serveContentOps modTime ""
  | .ok b => serveContentOps modTime b

/-- `ServeHTTP`, as the trace of writer operations it performs.  The Go
body mutates `f`, `fi` and `isIndexPage` when the implicit-index probe
succeeds and then branches on the (possibly updated) values; here that
mutation is translated into branch continuations: each leaf receives the
handle, stat and index flag the Go code would hold at that point. -/
def ServeHTTP (gfm : String → String) (h : Handler) (fs : FS)
    (req : Request) : List Op :=
  let url := normalizeUrl req.path
  let name := resolveName h.dir url
  match fs.openFile name with
  | .error e => errOps h e
  | .ok f =>
    match f.stat with
    | .error e => errOps h e
    | .ok fi =>
      if fi.isDir && !hasSuffix url "/" then
        redirect req (goBase url ++ "/")
      else if fi.isDir then
        -- url ends with "/": probe `name + "/index.md"`.
        match fs.openFile (name ++ "/index.md") with
        | .error _ => finishRender h fi.modTime (renderIndex h f url)
        | .ok ff =>
          match ff.stat with
          | .error _ => finishRender h fi.modTime (renderIndex h f url)
          | .ok ffi =>
            -- probe succeeded: f = ff, fi = ffi, isIndexPage = true
            if ffi.isDir then
              finishRender h ffi.modTime (renderIndex h ff url)
            else
              finishRender h ffi.modTime
                (renderDocument gfm h (name ++ "/index.md") ff url)
      else if hasSuffix url "/" then
        -- a plain file (isIndexPage = false) reached via a slashed URL
        redirect req ("../" ++ goBase url)
      else
        finishRender h fi.modTime (renderDocument gfm h name f url)

/-! ### Trace analysis -/

/-- How many times the error handler was entered. -/
def countErrCalls : List Op → Nat
  | [] => 0
  | .errCall _ :: rest => countErrCalls rest + 1
  | _ :: rest => countErrCalls rest

/-- The operations performed after the first return from the error
handler (empty if it never returned). -/
def afterErrRet : List Op → List Op
  | [] => []
  | .errRet :: rest => rest
  | _ :: rest => afterErrRet rest

/-- All body bytes written by a trace, concatenated. -/
def writesIn : List Op → String
  | [] => ""
  | .write s :: rest => s ++ writesIn rest
  | _ :: rest => writesIn rest

/-- The trace is a redirect response: a Location header followed by a 307
header write, and nothing else. -/
def isRedirectTrace (tr : List Op) : Prop :=
  ∃ loc, tr = [Op.setHeader "Location" loc, Op.writeHeader 307]

/-- The trace is a mapped-error response: one bracketed error-handler call,
followed only by operations that write no bytes and call no error
handler. -/
def isErrorTrace (h : Handler) (tr : List Op) : Prop :=
  ∃ e rest, tr = errOps h e ++ rest ∧ countErrCalls rest = 0 ∧ writesIn rest = ""

/-- The trace is a rendered-page response: exactly a successful
`http.ServeContent` on some buffer. -/
def isRenderTrace (tr : List Op) : Prop :=
  ∃ t b, tr = serveContentOps t b

/-- Exactly one of the three response kinds. -/
def exclusiveOutcome (h : Handler) (tr : List Op) : Prop :=
  (isRedirectTrace tr ∧ ¬isErrorTrace h tr ∧ ¬isRenderTrace tr) ∨
  (¬isRedirectTrace tr ∧ isErrorTrace h tr ∧ ¬isRenderTrace tr) ∨
  (¬isRedirectTrace tr ∧ ¬isErrorTrace h tr ∧ isRenderTrace tr)

/-! ### A small concrete world used to instantiate theorems -/

def sampleFile (c : String) : Entry :=
  ⟨.ok ⟨false, 7⟩, .ok c, .error (.other "not a directory")⟩

def sampleDir (l : List FInfo) : Entry :=
  ⟨.ok ⟨true, 9⟩, .error (.other "is a directory"), .ok l⟩

def sampleFS : FS := ⟨fun n =>
  if n = "docs" then
    .ok (sampleDir [⟨"guide.md", false⟩, ⟨"api", true⟩, ⟨".draft.md", false⟩,
                    ⟨"internal.md", false⟩, ⟨"notes.txt", false⟩])
  else if n = "docs/index.md" then .error .osNotExist
  else if n = "docs/notes" then .ok (sampleDir [])
  else if n = "docs/notes/index.md" then .error .osNotExist
  else if n = "docs/guide.md" then .ok (sampleFile "hello")
  else if n = "docs/sub" then .ok (sampleDir [⟨"index.md", false⟩])
  else if n = "docs/sub/index.md" then .ok (sampleFile "SUBIDX")
  else if n = "docs/notes.txt" then .ok (sampleFile "plain")
  else .error .osNotExist⟩

def sampleHandler : Handler :=
  ⟨"docs", "/", "theme", "",
   fun v => .ok ("IDX:" ++ v.path),
   fun v => .ok ("DOC:" ++ v.path ++ ":" ++ v.Content),
   defaultErrorHandler⟩

def sampleGfm : String → String := fun s => "<p>" ++ s

/-! ### Theorems -/

/-- Claim C10: calling `New` with an empty directory argument constructs
the same handler as calling it with ".", for every option list and every
template engine, so the two configurations behave identically. -/
theorem New_empty_dir_eq_dot
    (engineIdx : String → IndexPage → Except GoErr String)
    (engineDoc : String → DocumentPage → Except GoErr String)
    (opts : List HOption) :
    New engineIdx engineDoc "" opts = New engineIdx engineDoc "." opts := rfl

/-- Claim C1 (evaluated at the failing input): `New` assigns the
theme-default renderers after the option loop, so a handler constructed
with `IndexRenderer` and `DocumentRenderer` options still dispatches to the
default theme-template renderers, not the supplied functions. -/
theorem New_overwrites_renderer_options :
    (New (fun _ _ => .ok "DEFAULT-INDEX") (fun _ _ => .ok "DEFAULT-DOC") "."
        [IndexRenderer (fun _ => .ok "CUSTOM-INDEX"),
         DocumentRenderer (fun _ => .ok "CUSTOM-DOC")]).indexRenderer
        ⟨"/", "/", "", []⟩ = .ok "DEFAULT-INDEX" ∧
    (New (fun _ _ => .ok "DEFAULT-INDEX") (fun _ _ => .ok "DEFAULT-DOC") "."
        [IndexRenderer (fun _ => .ok "CUSTOM-INDEX"),
         DocumentRenderer (fun _ => .ok "CUSTOM-DOC")]).documentRenderer
        ⟨"/", "/", "", "n", ""⟩ = .ok "DEFAULT-DOC" := ⟨rfl, rfl⟩

/-- Claim C7: the default error mapper sends the sentinel not-found error
and the OS does-not-exist condition to 404, the OS permission condition to
403, and everything else to 500, each as a plain-text response whose body
is the generic status phrase (terminated by a newline). -/
theorem defaultErrorHandler_mapping (e : GoErr) :
    (runHOps (defaultErrorHandler e)).status = some (defaultErrorCode e) ∧
    (runHOps (defaultErrorHandler e)).body
      = statusText (defaultErrorCode e) ++ "\n" ∧
    (runHOps (defaultErrorHandler e)).getHeader "Content-Type"
      = some "text/plain; charset=utf-8" ∧
    defaultErrorCode .errNotFound = 404 ∧
    defaultErrorCode .osNotExist = 404 ∧
    defaultErrorCode .osPermission = 403 ∧
    (∀ m, defaultErrorCode (.other m) = 500) := by
  cases e <;> exact ⟨rfl, rfl, rfl, rfl, rfl, rfl, fun _ => rfl⟩

/-- Claim C6: a document request on a file whose extension is not exactly
".md" or ".markdown" yields the sentinel `ErrNotFound` without reading the
file (the result does not depend on the handle's content at all), and the
default error mapper sends that sentinel to status 404. -/
theorem renderDocument_not_markdown (gfm : String → String) (h : Handler)
    (name : String) (f : Entry) (path : String)
    (hm : isMarkdownFile name = false) :
    renderDocument gfm h name f path = .error .errNotFound ∧
    (∀ f' : Entry, renderDocument gfm h name f' path
        = renderDocument gfm h name f path) ∧
    (runHOps (defaultErrorHandler .errNotFound)).status = some 404 := by
  refine ⟨?_, ?_, rfl⟩ <;> simp [renderDocument, hm]

/-- Witness for C6 at a concrete non-Markdown file. -/
theorem renderDocument_not_markdown_witness :
    isMarkdownFile "docs/notes.txt" = false ∧
    renderDocument (fun s => s)
      ⟨"docs", "/", "t", "", fun _ => .ok "", fun _ => .ok "",
        defaultErrorHandler⟩
      "docs/notes.txt" ⟨.ok ⟨false, 0⟩, .ok "plain", .error .errNotFound⟩
      "/notes.txt" = .error .errNotFound := by
  have hm : isMarkdownFile "docs/notes.txt" = false := by decide
  exact ⟨hm, (renderDocument_not_markdown (fun s => s) _ _ _ _ hm).1⟩

/-- Claim C3: a request whose URL resolves to a directory but does not end
with a slash answers with a 307 whose Location is the URL's last segment
with exactly one slash appended, plus the original query string when
present; nothing is rendered and no error handler runs. -/
theorem ServeHTTP_dir_redirect_adds_slash (gfm : String → String)
    (h : Handler) (fs : FS) (req : Request) (f : Entry) (fi : Stat)
    (hopen : fs.openFile (resolveName h.dir (normalizeUrl req.path)) = .ok f)
    (hstat : f.stat = .ok fi) (hdir : fi.isDir = true)
    (hslash : hasSuffix (normalizeUrl req.path) "/" = false) :
    ServeHTTP gfm h fs req
      = redirect req (goBase (normalizeUrl req.path) ++ "/") ∧
    (runOps (ServeHTTP gfm h fs req)).status = some 307 ∧
    (runOps (ServeHTTP gfm h fs req)).getHeader "Location"
      = some (if req.rawQuery ≠ "" then
          goBase (normalizeUrl req.path) ++ "/" ++ "?" ++ req.rawQuery
        else goBase (normalizeUrl req.path) ++ "/") ∧
    writesIn (ServeHTTP gfm h fs req) = "" ∧
    countErrCalls (ServeHTTP gfm h fs req) = 0 := by
  have htr : ServeHTTP gfm h fs req
      = redirect req (goBase (normalizeUrl req.path) ++ "/") := by
    simp only [ServeHTTP, hopen, hstat]
    simp [hdir, hslash]
  refine ⟨htr, ?_, ?_, ?_, ?_⟩ <;> rw [htr] <;>
    by_cases hq : req.rawQuery = "" <;>
      simp [redirect, runOps, applyOp, Response.getHeader, Response.empty,
        writesIn, countErrCalls, hq]

/-- Witness for C3: `GET /notes?a=1` against the sample world. -/
theorem ServeHTTP_dir_redirect_adds_slash_witness :
    hasSuffix (normalizeUrl "/notes") "/" = false ∧
    ServeHTTP sampleGfm sampleHandler sampleFS ⟨"/notes", "a=1"⟩
      = redirect ⟨"/notes", "a=1"⟩ (goBase (normalizeUrl "/notes") ++ "/") :=
  ⟨by decide,
   (ServeHTTP_dir_redirect_adds_slash sampleGfm sampleHandler sampleFS
      ⟨"/notes", "a=1"⟩ (sampleDir []) ⟨true, 9⟩ rfl rfl rfl (by decide)).1⟩

/-- Claim C4: a request whose URL ends with a slash but resolves to a
regular file (so no implicit-index reclassification happens) answers with
a 307 whose Location is "../" followed by the URL's basename. -/
theorem ServeHTTP_file_redirect_strips_slash (gfm : String → String)
    (h : Handler) (fs : FS) (req : Request) (f : Entry) (fi : Stat)
    (hopen : fs.openFile (resolveName h.dir (normalizeUrl req.path)) = .ok f)
    (hstat : f.stat = .ok fi) (hdir : fi.isDir = false)
    (hslash : hasSuffix (normalizeUrl req.path) "/" = true) :
    ServeHTTP gfm h fs req
      = redirect req ("../" ++ goBase (normalizeUrl req.path)) ∧
    (runOps (ServeHTTP gfm h fs req)).status = some 307 ∧
    (runOps (ServeHTTP gfm h fs req)).getHeader "Location"
      = some (if req.rawQuery ≠ "" then
          "../" ++ goBase (normalizeUrl req.path) ++ "?" ++ req.rawQuery
        else "../" ++ goBase (normalizeUrl req.path)) ∧
    writesIn (ServeHTTP gfm h fs req) = "" ∧
    countErrCalls (ServeHTTP gfm h fs req) = 0 := by
  have htr : ServeHTTP gfm h fs req
      = redirect req ("../" ++ goBase (normalizeUrl req.path)) := by
    simp only [ServeHTTP, hopen, hstat]
    simp [hdir, hslash]
  refine ⟨htr, ?_, ?_, ?_, ?_⟩ <;> rw [htr] <;>
    by_cases hq : req.rawQuery = "" <;>
      simp [redirect, runOps, applyOp, Response.getHeader, Response.empty,
        writesIn, countErrCalls, hq]

/-- Witness for C4: `GET /guide.md/` against the sample world. -/
theorem ServeHTTP_file_redirect_strips_slash_witness :
    hasSuffix (normalizeUrl "/guide.md/") "/" = true ∧
    ServeHTTP sampleGfm sampleHandler sampleFS ⟨"/guide.md/", ""⟩
      = redirect ⟨"/guide.md/", ""⟩ ("../" ++ goBase (normalizeUrl "/guide.md/")) :=
  ⟨by decide,
   (ServeHTTP_file_redirect_strips_slash sampleGfm sampleHandler sampleFS
      ⟨"/guide.md/", ""⟩ (sampleFile "hello") ⟨false, 7⟩ rfl rfl rfl
      (by decide)).1⟩

theorem byNameLE_trans (a b c : File) :
    byNameLE a b = true → byNameLE b c = true → byNameLE a c = true := by
  rcases a with ⟨an, ad⟩; rcases b with ⟨bn, bd⟩; rcases c with ⟨cn, cd⟩
  cases ad <;> cases bd <;> cases cd <;>
    simp [byNameLE, byNameLess] <;>
    exact fun h1 h2 => le_trans h1 h2

theorem byNameLE_total (a b : File) :
    byNameLE a b = true ∨ byNameLE b a = true := by
  rcases a with ⟨an, ad⟩; rcases b with ⟨bn, bd⟩
  cases ad <;> cases bd <;> simp [byNameLE, byNameLess] <;>
    exact le_total an.data bn.data

theorem byNameLE_imp (a b : File) (hle : byNameLE a b = true) :
    (a.IsDir = false → b.IsDir = false) ∧
    (a.IsDir = b.IsDir → a.Name ≤ b.Name) := by
  rcases a with ⟨an, ad⟩; rcases b with ⟨bn, bd⟩
  cases ad <;> cases bd <;> simp_all [byNameLE, byNameLess]

/-- Claim C5: every directory listing contains no hidden entries and no
non-directory entry with an extension other than exactly ".md" or
".markdown", and it is ordered with all directories before all files and,
within each group, by ascending lexical name. -/
theorem getFiles_filtered_sorted (f : Entry) (fis : List FInfo)
    (hrd : f.readdir = .ok fis) :
    ∃ files, getFiles f = .ok files ∧
      (∀ x ∈ files, hasPrefix x.Name "." = false) ∧
      (∀ x ∈ files, x.IsDir = false →
        (goExt x.Name = ".md" ∨ goExt x.Name = ".markdown")) ∧
      files.Pairwise (fun a b =>
        (a.IsDir = false → b.IsDir = false) ∧
        (a.IsDir = b.IsDir → a.Name ≤ b.Name)) := by
  have hgf : getFiles f = .ok
      (((fis.map (fun fi => File.mk fi.name fi.isDir)).filter
        (fun f => !(hasPrefix f.Name "."
          || (!f.IsDir && !isMarkdownFile f.Name)))).mergeSort byNameLE) := by
    simp [getFiles, hrd]
  refine ⟨_, hgf, ?_, ?_, ?_⟩
  · intro x hx
    rw [List.mem_mergeSort] at hx
    have hp := (List.mem_filter.mp hx).2
    simp at hp
    exact hp.1
  · intro x hx hnd
    rw [List.mem_mergeSort] at hx
    have hp := (List.mem_filter.mp hx).2
    simp at hp
    have := hp.2
    rw [hnd] at this
    simpa [isMarkdownFile] using this
  · have hs := @List.sorted_mergeSort _ byNameLE byNameLE_trans
      (by intro a b; simpa [Bool.or_eq_true] using byNameLE_total a b)
      ((fis.map (fun fi => File.mk fi.name fi.isDir)).filter
        (fun f => !(hasPrefix f.Name "."
          || (!f.IsDir && !isMarkdownFile f.Name))))
    exact hs.imp (fun hle => byNameLE_imp _ _ hle)

/-- Witness for C5: the sample `docs` listing. -/
theorem getFiles_filtered_sorted_witness :
    ∃ files, getFiles (sampleDir [⟨"guide.md", false⟩, ⟨"api", true⟩,
        ⟨".draft.md", false⟩, ⟨"internal.md", false⟩,
        ⟨"notes.txt", false⟩]) = .ok files ∧
      (∀ x ∈ files, hasPrefix x.Name "." = false) ∧
      (∀ x ∈ files, x.IsDir = false →
        (goExt x.Name = ".md" ∨ goExt x.Name = ".markdown")) ∧
      files.Pairwise (fun a b =>
        (a.IsDir = false → b.IsDir = false) ∧
        (a.IsDir = b.IsDir → a.Name ≤ b.Name)) :=
  getFiles_filtered_sorted _ _ rfl

theorem normalizeUrl_hasPrefix (p : String) :
    hasPrefix (normalizeUrl p) "/" = true := by
  rw [normalizeUrl]
  by_cases hp : hasPrefix p "/"
  · simp [hp]
  · simp only [hp, Bool.not_false, if_pos]
    simp [hasPrefix, String.data_append, List.isPrefixOf]

theorem normalizeUrl_ne_empty (p : String) : normalizeUrl p ≠ "" := by
  intro h
  have := normalizeUrl_hasPrefix p
  rw [h] at this
  simp [hasPrefix] at this

/-- `popDotDot` preserves the invariant that the rooted stack holds only
real path elements. -/
theorem popDotDot_rooted_ok (stack : List String)
    (hst : ∀ s ∈ stack, s ≠ "" ∧ s ≠ "." ∧ s ≠ "..") :
    ∀ s ∈ popDotDot true stack, s ≠ "" ∧ s ≠ "." ∧ s ≠ ".." := by
  cases stack with
  | nil => simp [popDotDot]
  | cons t tl =>
    have ht := hst t (by simp)
    intro s hs
    rw [popDotDot, if_neg ht.2.2] at hs
    exact hst s (by simp [hs])

/-- The invariant of the rooted cleaning loop: if the stack holds only
real path elements, so does the final element list. -/
theorem cleanSegsAux_rooted_ok (l : List String) : ∀ stack : List String,
    (∀ s ∈ stack, s ≠ "" ∧ s ≠ "." ∧ s ≠ "..") →
    ∀ s ∈ cleanSegsAux true stack l, s ≠ "" ∧ s ≠ "." ∧ s ≠ ".." := by
  induction l with
  | nil =>
    intro stack hst s hs
    rw [cleanSegsAux] at hs
    exact hst s (List.mem_reverse.mp hs)
  | cons x rest ih =>
    intro stack hst s hs
    rw [cleanSegsAux] at hs
    by_cases h1 : x = "" ∨ x = "."
    · rw [if_pos h1] at hs
      exact ih stack hst s hs
    · rw [if_neg h1] at hs
      by_cases h2 : x = ".."
      · rw [if_pos h2] at hs
        exact ih _ (popDotDot_rooted_ok stack hst) s hs
      · rw [if_neg h2] at hs
        refine ih (x :: stack) ?_ s hs
        intro u hu
        rcases List.mem_cons.mp hu with rfl | hu
        · exact ⟨fun h => h1 (Or.inl h), fun h => h1 (Or.inr h), h2⟩
        · exact hst u hu

/-- Lexical cleaning of a rooted path yields a rooted path whose elements
contain no "", "." or ".." segments. -/
theorem goClean_rooted (p : String) (hp : hasPrefix p "/" = true)
    (hne : p ≠ "") :
    ∃ segs, (∀ s ∈ segs, s ≠ "" ∧ s ≠ "." ∧ s ≠ "..") ∧
      goClean p = "/" ++ String.intercalate "/" segs := by
  refine ⟨cleanSegsAux true [] (splitSlash p.data),
    cleanSegsAux_rooted_ok _ _ (by simp), ?_⟩
  rw [goClean, if_neg hne]
  simp [hp]

/-- Claim C8: the resolved filesystem name is the base directory itself
when the normalised URL is "/", and otherwise the base directory followed
by the lexical cleaning of the normalised URL — a rooted path with no ".."
(or ".", or empty) segments left, so traversal cannot climb out of the
base.  `resolveName` is a pure function: no filesystem access occurs. -/
theorem resolveName_stays_in_base (dir p : String) :
    (normalizeUrl p = "/" → resolveName dir (normalizeUrl p) = dir) ∧
    (normalizeUrl p ≠ "/" →
      resolveName dir (normalizeUrl p) = dir ++ goClean (normalizeUrl p) ∧
      ∃ segs, (∀ s ∈ segs, s ≠ "" ∧ s ≠ "." ∧ s ≠ "..") ∧
        goClean (normalizeUrl p) = "/" ++ String.intercalate "/" segs) := by
  constructor
  · intro h
    simp [resolveName, h]
  · intro h
    refine ⟨by simp [resolveName, h], ?_⟩
    exact goClean_rooted _ (normalizeUrl_hasPrefix p) (normalizeUrl_ne_empty p)

/-- Witness for C8: the root URL resolves to the base itself, and a
traversal attempt resolves to base ++ cleaned suffix. -/
theorem resolveName_stays_in_base_witness :
    resolveName "docs" (normalizeUrl "") = "docs" ∧
    resolveName "docs" (normalizeUrl "/../../etc")
      = "docs" ++ goClean (normalizeUrl "/../../etc") :=
  ⟨(resolveName_stays_in_base "docs" "").1 (by decide),
   ((resolveName_stays_in_base "docs" "/../../etc").2 (by decide)).1⟩

theorem goExtRev_dm_dot (acc l : List Char) :
    goExtRev acc ('d' :: 'm' :: '.' :: l) = '.' :: 'm' :: 'd' :: acc := by
  rw [goExtRev, if_neg (by decide), if_neg (by decide)]
  rw [goExtRev, if_neg (by decide), if_neg (by decide)]
  rw [goExtRev, if_neg (by decide), if_pos rfl]

/-- Any path ending in "/index.md" has extension ".md". -/
theorem isMarkdownFile_index (s : String) :
    isMarkdownFile (s ++ "/index.md") = true := by
  have h1 : (s ++ "/index.md").data.reverse
      = 'd' :: 'm' :: '.' :: (['x', 'e', 'd', 'n', 'i', '/'] ++ s.data.reverse) := by
    rw [String.data_append]
    rw [show ("/index.md").data = ['/', 'i', 'n', 'd', 'e', 'x', '.', 'm', 'd'] from rfl]
    simp
  unfold isMarkdownFile goExt
  rw [h1, goExtRev_dm_dot]
  rfl

/-- Claim C9: for a directory URL (trailing slash) whose directory opens
and whose `index.md` opens and stats as a regular file, the request goes
through the document-rendering path with the original directory URL as the
page's logical path; if opening the `index.md` fails, the request falls
through to directory-listing rendering. -/
theorem ServeHTTP_implicit_index (gfm : String → String) (h : Handler)
    (fs : FS) (req : Request) (f : Entry) (fi : Stat)
    (hslash : hasSuffix (normalizeUrl req.path) "/" = true)
    (hopen : fs.openFile (resolveName h.dir (normalizeUrl req.path)) = .ok f)
    (hstat : f.stat = .ok fi) (hdir : fi.isDir = true) :
    (∀ ff ffi raw b,
      fs.openFile (resolveName h.dir (normalizeUrl req.path) ++ "/index.md")
        = .ok ff →
      ff.stat = .ok ffi → ffi.isDir = false →
      ff.readAll = .ok raw →
      h.documentRenderer ⟨h.root, normalizeUrl req.path, "",
        resolveName h.dir (normalizeUrl req.path) ++ "/index.md", gfm raw⟩
        = .ok b →
      ServeHTTP gfm h fs req = serveContentOps ffi.modTime b) ∧
    (∀ e ib,
      fs.openFile (resolveName h.dir (normalizeUrl req.path) ++ "/index.md")
        = .error e →
      renderIndex h f (normalizeUrl req.path) = .ok ib →
      ServeHTTP gfm h fs req = serveContentOps fi.modTime ib) := by
  constructor
  · intro ff ffi raw b hff hffs hffd hraw hb
    have hmd := isMarkdownFile_index (resolveName h.dir (normalizeUrl req.path))
    simp only [ServeHTTP, hopen, hstat, hff, hffs]
    simp [hdir, hslash, hffd, finishRender, renderDocument, hmd, hraw, hb]
  · intro e ib he hib
    simp only [ServeHTTP, hopen, hstat, he]
    simp [hdir, hslash, finishRender, hib]

/-- Witness for C9: `GET /sub/` renders `docs/sub/index.md` as a document
with logical path "/sub/", and `GET /notes/` (no index.md) falls through
to the listing. -/
theorem ServeHTTP_implicit_index_witness :
    ServeHTTP sampleGfm sampleHandler sampleFS ⟨"/sub/", ""⟩
      = serveContentOps 7 "DOC:/sub/:<p>SUBIDX" ∧
    ServeHTTP sampleGfm sampleHandler sampleFS ⟨"/notes/", ""⟩
      = serveContentOps 9 "IDX:/notes/" :=
  ⟨(ServeHTTP_implicit_index sampleGfm sampleHandler sampleFS ⟨"/sub/", ""⟩
      (sampleDir [⟨"index.md", false⟩]) ⟨true, 9⟩ (by decide) rfl rfl rfl).1
      (sampleFile "SUBIDX") ⟨false, 7⟩ "SUBIDX" "DOC:/sub/:<p>SUBIDX"
      rfl rfl rfl rfl rfl,
   (ServeHTTP_implicit_index sampleGfm sampleHandler sampleFS ⟨"/notes/", ""⟩
      (sampleDir []) ⟨true, 9⟩ (by decide) rfl rfl rfl).2
      .osNotExist "IDX:/notes/" rfl rfl⟩

theorem countErrCalls_append (l₁ l₂ : List Op) :
    countErrCalls (l₁ ++ l₂) = countErrCalls l₁ + countErrCalls l₂ := by
  induction l₁ with
  | nil => simp [countErrCalls]
  | cons x rest ih => cases x <;> (simp [countErrCalls, ih]; try omega)

theorem countErrCalls_map_hop (l : List HOp) :
    countErrCalls (l.map hopToOp) = 0 := by
  induction l with
  | nil => rfl
  | cons x rest ih => cases x <;> simpa [hopToOp, countErrCalls] using ih

theorem countErrCalls_errOps (h : Handler) (e : GoErr) :
    countErrCalls (errOps h e) = 1 := by
  simp [errOps, countErrCalls, countErrCalls_append, countErrCalls_map_hop]

theorem countErrCalls_serveContent (t : Nat) (b : String) :
    countErrCalls (serveContentOps t b) = 0 := by
  by_cases hb : b = "" <;>
    simp [serveContentOps, hb, countErrCalls, countErrCalls_append]

theorem countErrCalls_redirect (req : Request) (loc : String) :
    countErrCalls (redirect req loc) = 0 := rfl

theorem writesIn_serveContent_empty (t : Nat) :
    writesIn (serveContentOps t "") = "" := rfl

theorem afterErrRet_redirect (req : Request) (loc : String) :
    afterErrRet (redirect req loc) = [] := rfl

theorem afterErrRet_serveContent (t : Nat) (b : String) :
    afterErrRet (serveContentOps t b) = [] := by
  by_cases hb : b = "" <;> simp [serveContentOps, hb, afterErrRet]

theorem afterErrRet_map_hop (l : List HOp) (rest : List Op) :
    afterErrRet (l.map hopToOp ++ Op.errRet :: rest) = rest := by
  induction l with
  | nil => rfl
  | cons x tl ih => cases x <;> simpa [hopToOp, afterErrRet] using ih

theorem afterErrRet_errOps (h : Handler) (e : GoErr) (rest : List Op) :
    afterErrRet (errOps h e ++ rest) = rest := by
  have heq : errOps h e ++ rest
      = Op.errCall e :: ((h.errorHandler e).map hopToOp ++ (Op.errRet :: rest)) := by
    simp [errOps]
  rw [heq]
  exact afterErrRet_map_hop _ _

theorem not_errorTrace_redirect (h : Handler) (req : Request) (loc : String) :
    ¬isErrorTrace h (redirect req loc) := by
  rintro ⟨e, rest, heq, -, -⟩
  simp [redirect, errOps] at heq

theorem not_errorTrace_serveContent (h : Handler) (t : Nat) (b : String) :
    ¬isErrorTrace h (serveContentOps t b) := by
  rintro ⟨e, rest, heq, -, -⟩
  by_cases hb : b = "" <;> simp [serveContentOps, hb, errOps] at heq

theorem not_redirectTrace_serveContent (t : Nat) (b : String) :
    ¬isRedirectTrace (serveContentOps t b) := by
  rintro ⟨loc, heq⟩
  by_cases hb : b = "" <;> simp [serveContentOps, hb] at heq

theorem not_renderTrace_redirect (req : Request) (loc : String) :
    ¬isRenderTrace (redirect req loc) := by
  rintro ⟨t, b, heq⟩
  by_cases hb : b = "" <;> simp [serveContentOps, hb, redirect] at heq

theorem not_redirectTrace_errOps (h : Handler) (e : GoErr) (rest : List Op) :
    ¬isRedirectTrace (errOps h e ++ rest) := by
  rintro ⟨loc, heq⟩
  simp [errOps] at heq

theorem not_renderTrace_errOps (h : Handler) (e : GoErr) (rest : List Op) :
    ¬isRenderTrace (errOps h e ++ rest) := by
  rintro ⟨t, b, heq⟩
  by_cases hb : b = "" <;> simp [errOps, serveContentOps, hb] at heq

theorem exclusive_redirect (h : Handler) (req : Request) (loc : String) :
    exclusiveOutcome h (redirect req loc) :=
  Or.inl ⟨⟨_, rfl⟩, not_errorTrace_redirect h req loc,
    not_renderTrace_redirect req loc⟩

theorem exclusive_errOps_tail (h : Handler) (e : GoErr) (rest : List Op)
    (h0 : countErrCalls rest = 0) (hw : writesIn rest = "") :
    exclusiveOutcome h (errOps h e ++ rest) :=
  Or.inr (Or.inl ⟨not_redirectTrace_errOps h e rest,
    ⟨e, rest, rfl, h0, hw⟩, not_renderTrace_errOps h e rest⟩)

theorem exclusive_render (h : Handler) (t : Nat) (b : String) :
    exclusiveOutcome h (serveContentOps t b) :=
  Or.inr (Or.inr ⟨not_redirectTrace_serveContent t b,
    not_errorTrace_serveContent h t b, ⟨t, b, rfl⟩⟩)

theorem errorTrace_count (h : Handler) (tr : List Op)
    (ht : isErrorTrace h tr) : countErrCalls tr = 1 := by
  obtain ⟨e, rest, rfl, h0, -⟩ := ht
  simp [countErrCalls_append, countErrCalls_errOps, h0]

theorem goodTrace_redirect (h : Handler) (req : Request) (loc : String) :
    countErrCalls (redirect req loc) ≤ 1 ∧
    writesIn (afterErrRet (redirect req loc)) = "" ∧
    exclusiveOutcome h (redirect req loc) := by
  refine ⟨by simp [countErrCalls_redirect], ?_, exclusive_redirect h req loc⟩
  rw [afterErrRet_redirect]
  rfl

theorem goodTrace_errOps (h : Handler) (e : GoErr) :
    countErrCalls (errOps h e) ≤ 1 ∧
    writesIn (afterErrRet (errOps h e)) = "" ∧
    exclusiveOutcome h (errOps h e) := by
  have hnil : errOps h e = errOps h e ++ [] := by simp
  refine ⟨le_of_eq (countErrCalls_errOps h e), ?_, ?_⟩
  · rw [hnil, afterErrRet_errOps]
    rfl
  · rw [hnil]
    exact exclusive_errOps_tail h e [] rfl rfl

theorem goodTrace_finish (h : Handler) (t : Nat) (res : Except GoErr String) :
    countErrCalls (finishRender h t res) ≤ 1 ∧
    writesIn (afterErrRet (finishRender h t res)) = "" ∧
    exclusiveOutcome h (finishRender h t res) := by
  cases res with
  | error e =>
    refine ⟨?_, ?_, exclusive_errOps_tail h e _
      (countErrCalls_serveContent t "") (writesIn_serveContent_empty t)⟩
    · rw [finishRender, countErrCalls_append, countErrCalls_errOps,
        countErrCalls_serveContent]
    · rw [finishRender, afterErrRet_errOps]
      exact writesIn_serveContent_empty t
  | ok b =>
    refine ⟨?_, ?_, exclusive_render h t b⟩
    · rw [finishRender, countErrCalls_serveContent]
      exact Nat.zero_le 1
    · rw [finishRender, afterErrRet_serveContent]
      rfl

set_option maxHeartbeats 2000000 in
theorem goodTrace_ServeHTTP (gfm : String → String) (h : Handler) (fs : FS)
    (req : Request) :
    countErrCalls (ServeHTTP gfm h fs req) ≤ 1 ∧
    writesIn (afterErrRet (ServeHTTP gfm h fs req)) = "" ∧
    exclusiveOutcome h (ServeHTTP gfm h fs req) := by
  simp only [ServeHTTP]
  repeat' split
  all_goals first
    | exact goodTrace_errOps _ _
    | exact goodTrace_redirect _ _ _
    | exact goodTrace_finish _ _ _

/-- Claim C2: on every request the error mapper is entered at most once —
exactly once when the outcome is a mapped error — no body bytes are
written after it returns, and the trace is exactly one of a redirect, a
rendered page, or a mapped error response. -/
theorem ServeHTTP_single_outcome (gfm : String → String) (h : Handler)
    (fs : FS) (req : Request) :
    countErrCalls (ServeHTTP gfm h fs req) ≤ 1 ∧
    writesIn (afterErrRet (ServeHTTP gfm h fs req)) = "" ∧
    (isErrorTrace h (ServeHTTP gfm h fs req) →
      countErrCalls (ServeHTTP gfm h fs req) = 1) ∧
    exclusiveOutcome h (ServeHTTP gfm h fs req) := by
  obtain ⟨h1, h2, h3⟩ := goodTrace_ServeHTTP gfm h fs req
  exact ⟨h1, h2, errorTrace_count h _, h3⟩

/-- Witness for C2: a failing request (`GET /missing.md`) enters the
error mapper exactly once. -/
theorem ServeHTTP_single_outcome_witness :
    countErrCalls (ServeHTTP sampleGfm sampleHandler sampleFS
      ⟨"/missing.md", ""⟩) ≤ 1 ∧
    countErrCalls (ServeHTTP sampleGfm sampleHandler sampleFS
      ⟨"/missing.md", ""⟩) = 1 := by
  obtain ⟨h1, h2, h3, h4⟩ := ServeHTTP_single_outcome sampleGfm sampleHandler
    sampleFS ⟨"/missing.md", ""⟩
  exact ⟨h1, h3 ⟨.osNotExist, [], by rfl, rfl, rfl⟩⟩

end Mdoc
